import Mathlib

/-!
Shallow embedding of the taskq core (queue and task operations over a
single relational store).  Queues, tasks and journal entries are kept in
Lean lists that mirror the SQLite tables; timestamps are abstract `Nat`
ticks supplied by the caller (the code stamps `CURRENT_TIMESTAMP`);
fallible operations return `Except Err`, mirroring thrown typed errors,
and an error leaves the store unchanged (transaction rollback).
-/

namespace TaskQ

/-- The four task states of the `status` CHECK constraint. -/
inductive TaskStatus
  | pending
  | checked_out
  | completed
  | failed
deriving DecidableEq

/-- A row of the `queues` table. -/
structure Queue where
  name : String
  description : Option String
  instructions : Option String
  createdAt : Nat
  updatedAt : Nat
deriving DecidableEq

/-- A row of the `tasks` table.  `parameters` is kept as the opaque
stored JSON text. -/
structure Task where
  id : Nat
  queueName : String
  title : String
  description : Option String
  priority : Int
  parameters : Option String
  instructions : Option String
  status : TaskStatus
  workerId : Option String
  createdAt : Nat
  checkedOutAt : Option Nat
  completedAt : Option Nat
  updatedAt : Nat
deriving DecidableEq

/-- A row of the `task_journal` table. -/
structure JournalEntry where
  id : Nat
  taskId : Nat
  status : TaskStatus
  notes : Option String
  timestamp : Nat
deriving DecidableEq

/-- The whole database state: the three tables plus the AUTOINCREMENT
counters. -/
structure Store where
  queues : List Queue
  tasks : List Task
  journal : List JournalEntry
  nextTaskId : Nat
  nextJournalId : Nat
deriving DecidableEq

/-- A freshly created database: empty tables, AUTOINCREMENT starts at 1. -/
def initStore : Store := ⟨[], [], [], 1, 1⟩

/-- The typed error taxonomy of `src/core/utils/errors.ts`. -/
inductive Err
  | validation (msg : String)
  | notFound (resource : String) (identifier : String)
  | conflict (msg : String)
  | checkout (msg : String)
  | database (msg : String)
deriving DecidableEq

/-- One decimal digit as a character. -/
def digitChar (n : Nat) : Char :=
  if n = 0 then '0' else if n = 1 then '1' else if n = 2 then '2'
  else if n = 3 then '3' else if n = 4 then '4' else if n = 5 then '5'
  else if n = 6 then '6' else if n = 7 then '7' else if n = 8 then '8'
  else '9'

/-- Decimal digits of a natural number (fuel-based, fuel ≥ the number). -/
def natDigits : Nat → Nat → List Char
  | 0, _ => []
  | fuel + 1, n =>
    if n < 10 then [digitChar n]
    else natDigits fuel (n / 10) ++ [digitChar (n % 10)]

/-- Render a natural number in decimal, as JS string interpolation does
for task ids. -/
def natToStr (n : Nat) : String := ⟨natDigits (n + 1) n⟩

def resQueue : String := "Queue"

def resTask : String := "Task"

/-- JS `x || null`: an absent or empty string becomes null. -/
def orNull (v : Option String) : Option String :=
  match v with
  | none => none
  | some s => if s = "" then none else some s

/-- One character of the queue-name whitelist `[\w\-.]`. -/
def isQueueNameChar (c : Char) : Bool :=
  (decide ('a' ≤ c) && decide (c ≤ 'z')) ||
  (decide ('A' ≤ c) && decide (c ≤ 'Z')) ||
  (decide ('0' ≤ c) && decide (c ≤ '9')) ||
  decide (c = '_') || decide (c = '-') || decide (c = '.')

def msgQueueNameRequired : String := "Queue name is required and must be a string"

def msgQueueNameEmpty : String := "Queue name cannot be empty"

def msgQueueNameLong : String := "Queue name cannot exceed 255 characters"

def msgQueueNameChars : String :=
  "Queue name can only contain letters, numbers, hyphens, underscores, and dots"

/-- `validateQueueName` of `utils/validation.ts`. -/
def validateQueueName (name : String) : Option Err :=
  if name.data.isEmpty then some (.validation msgQueueNameRequired)
  else if name.data.all (fun c => c.isWhitespace) then some (.validation msgQueueNameEmpty)
  else if 255 < name.data.length then some (.validation msgQueueNameLong)
  else if !(name.data.all isQueueNameChar) then some (.validation msgQueueNameChars)
  else none

def msgTitleRequired : String := "Task title is required and must be a string"

def msgTitleEmpty : String := "Task title cannot be empty"

def msgTitleLong : String := "Task title cannot exceed 500 characters"

/-- `validateTaskTitle` of `utils/validation.ts`. -/
def validateTaskTitle (title : String) : Option Err :=
  if title.data.isEmpty then some (.validation msgTitleRequired)
  else if title.data.all (fun c => c.isWhitespace) then some (.validation msgTitleEmpty)
  else if 500 < title.data.length then some (.validation msgTitleLong)
  else none

def msgPriorityRange : String := "Priority must be between 1 and 10"

/-- `validatePriority` of `utils/validation.ts` (the integrality check of
the original holds by the `Int` type). -/
def validatePriority (p : Int) : Option Err :=
  if p < 1 ∨ 10 < p then some (.validation msgPriorityRange) else none

def msgTaskIdPositive : String := "Task ID must be a positive integer"

/-- `validateTaskId` of `utils/validation.ts` (ids are `Nat`, so only 0
is non-positive). -/
def validateTaskId (id : Nat) : Option Err :=
  if id = 0 then some (.validation msgTaskIdPositive) else none

/-- `SELECT ... FROM queues WHERE name = ?` (name is the primary key). -/
def findQueue (s : Store) (name : String) : Option Queue :=
  s.queues.find? (fun q => decide (q.name = name))

/-- `SELECT ... FROM tasks WHERE id = ?` (id is the primary key). -/
def findTask (s : Store) (id : Nat) : Option Task :=
  s.tasks.find? (fun tk => decide (tk.id = id))

/-- `UPDATE tasks ... WHERE id = ?`: replace the row with the given id. -/
def replaceTask (s : Store) (tk : Task) : Store :=
  { s with tasks := s.tasks.map (fun x => if x.id = tk.id then tk else x) }

/-- `UPDATE queues ... WHERE name = ?`: replace the row with the given name. -/
def replaceQueue (s : Store) (q : Queue) : Store :=
  { s with queues := s.queues.map (fun x => if x.name = q.name then q else x) }

structure CreateQueueRequest where
  name : String
  description : Option String
  instructions : Option String
deriving DecidableEq

structure UpdateQueueRequest where
  description : Option String
  instructions : Option String
deriving DecidableEq

structure CreateTaskRequest where
  queueName : String
  title : String
  description : Option String
  priority : Option Int
  parameters : Option String
  instructions : Option String
deriving DecidableEq

/-- A task patch: outer `Option` is presence in the patch.  For
`parameters` the inner value is the stored JSON text produced by
`validateParameters` + `JSON.stringify` (`none` when it stringifies to
null). -/
structure UpdateTaskRequest where
  title : Option String
  description : Option String
  priority : Option Int
  parameters : Option (Option String)
  instructions : Option String
deriving DecidableEq

/-- `QueueOperations.createQueue`. -/
def createQueue (s : Store) (t : Nat) (req : CreateQueueRequest) :
    Except Err (Queue × Store) :=
  match validateQueueName req.name with
  | some e => .error e
  | none =>
    match findQueue s req.name with
    | some _ => .error (.conflict ("Queue already exists: " ++ req.name))
    | none =>
      let q : Queue := ⟨req.name, orNull req.description, orNull req.instructions, t, t⟩
      .ok (q, { s with queues := s.queues ++ [q] })

/-- SQL `CASE WHEN set THEN (v || null) ELSE old END` of the partial
updates: absent preserves, empty string clears to null. -/
def patchField (provided : Option String) (old : Option String) : Option String :=
  match provided with
  | none => old
  | some v => if v = "" then none else some v

/-- `QueueOperations.updateQueue`. -/
def updateQueue (s : Store) (t : Nat) (name : String) (req : UpdateQueueRequest) :
    Except Err (Queue × Store) :=
  match validateQueueName name with
  | some e => .error e
  | none =>
    match findQueue s name with
    | none => .error (.notFound resQueue name)
    | some q =>
      if req.description = none ∧ req.instructions = none then .ok (q, s)
      else
        let q2 : Queue := { q with
          description := patchField req.description q.description,
          instructions := patchField req.instructions q.instructions,
          updatedAt := t }
        .ok (q2, replaceQueue s q2)

/-- `QueueOperations.deleteQueue`: `DELETE FROM queues WHERE name = ?`,
with `ON DELETE CASCADE` removing the queue's tasks and, transitively,
their journal entries. -/
def deleteQueue (s : Store) (name : String) : Except Err Store :=
  match validateQueueName name with
  | some e => .error e
  | none =>
    match findQueue s name with
    | none => .error (.notFound resQueue name)
    | some _ =>
      .ok { s with
        queues := s.queues.filter (fun q => !(decide (q.name = name))),
        tasks := s.tasks.filter (fun tk => !(decide (tk.queueName = name))),
        journal := s.journal.filter (fun j =>
          !(s.tasks.any (fun tk => decide (tk.id = j.taskId) && decide (tk.queueName = name)))) }

/-- `QueueOperations.getQueue`. -/
def getQueue (s : Store) (name : String) : Except Err (Option Queue) :=
  match validateQueueName name with
  | some e => .error e
  | none => .ok (findQueue s name)

/-- `TaskOperations.addTask`. -/
def addTask (s : Store) (t : Nat) (req : CreateTaskRequest) :
    Except Err (Task × Store) :=
  match validateQueueName req.queueName with
  | some e => .error e
  | none =>
  match validateTaskTitle req.title with
  | some e => .error e
  | none =>
  match (match req.priority with | some p => validatePriority p | none => none) with
  | some e => .error e
  | none =>
  match findQueue s req.queueName with
  | none => .error (.notFound resQueue req.queueName)
  | some _ =>
    let tk : Task := ⟨s.nextTaskId, req.queueName, req.title, orNull req.description,
      req.priority.getD 5, req.parameters, orNull req.instructions,
      .pending, none, t, none, none, t⟩
    .ok (tk, { s with tasks := s.tasks ++ [tk], nextTaskId := s.nextTaskId + 1 })

/-- `TaskOperations.getTask` (the stored `parameters` text is returned
opaquely). -/
def getTask (s : Store) (id : Nat) : Except Err (Option Task) :=
  match validateTaskId id with
  | some e => .error e
  | none => .ok (findTask s id)

/-- `TaskOperations.updateTask`. -/
def updateTask (s : Store) (t : Nat) (id : Nat) (req : UpdateTaskRequest) :
    Except Err (Task × Store) :=
  match validateTaskId id with
  | some e => .error e
  | none =>
  match findTask s id with
  | none => .error (.notFound resTask (natToStr id))
  | some tk =>
  match (match req.title with | some ti => validateTaskTitle ti | none => none) with
  | some e => .error e
  | none =>
  match (match req.priority with | some p => validatePriority p | none => none) with
  | some e => .error e
  | none =>
    let tk2 : Task := { tk with
      title := req.title.getD tk.title,
      description := patchField req.description tk.description,
      priority := req.priority.getD tk.priority,
      parameters := (match req.parameters with | some v => v | none => tk.parameters),
      instructions := patchField req.instructions tk.instructions,
      updatedAt := t }
    .ok (tk2, replaceTask s tk2)

/-- `a` must be dispatched strictly before `b`:
`ORDER BY priority DESC, created_at ASC`. -/
def taskBefore (a b : Task) : Bool :=
  decide (b.priority < a.priority) ||
  (decide (a.priority = b.priority) && decide (a.createdAt < b.createdAt))

/-- Fold step keeping the best candidate so far (first row of the
`ORDER BY ... LIMIT 1`; ties keep the earlier row, as rowid order does). -/
def betterCandidate (best : Option Task) (tk : Task) : Option Task :=
  match best with
  | none => some tk
  | some b => if taskBefore tk b then some tk else some b

/-- The `SELECT id FROM tasks WHERE queue_name = ? AND status = 'pending'
ORDER BY priority DESC, created_at ASC LIMIT 1` of checkout. -/
def selectPending (s : Store) (qname : String) : Option Task :=
  (s.tasks.filter (fun tk =>
      decide (tk.queueName = qname) && decide (tk.status = TaskStatus.pending))).foldl
    betterCandidate none

/-- JS `workerId || null` on the checkout bind parameters. -/
def normWorker (w : Option String) : Option String := orNull w

def msgCheckoutRace (id : Nat) : String :=
  "Failed to checkout task " ++ natToStr id ++ " - it may have been checked out by another worker"

/-- The guarded update of checkout:
`UPDATE tasks SET status = 'checked_out', ... WHERE id = ? AND status = 'pending'`;
zero affected rows raise `CheckoutError`. -/
def finishCheckout (s : Store) (t : Nat) (tk : Task) (workerId : Option String) :
    Except Err (Option Task × Store) :=
  if tk.status = TaskStatus.pending then
    let tk2 : Task := { tk with
      status := .checked_out,
      workerId := normWorker workerId,
      checkedOutAt := some t,
      updatedAt := t }
    .ok (some tk2, replaceTask s tk2)
  else
    .error (.checkout (msgCheckoutRace tk.id))

/-- The string-or-number first argument of `checkoutTask`. -/
inductive CheckoutTarget
  | byQueue (name : String)
  | byId (id : Nat)
deriving DecidableEq

def msgNotPending (id : Nat) : String :=
  "Task " ++ natToStr id ++ " is not pending"

/-- The `typeof queueNameOrTaskId === 'number'` branch of
`TaskOperations.checkoutTask`. -/
def checkoutById (s : Store) (t : Nat) (id : Nat) (workerId : Option String) :
    Except Err (Option Task × Store) :=
  match validateTaskId id with
  | some e => .error e
  | none =>
    match findTask s id with
    | none => .error (.notFound resTask (natToStr id))
    | some tk =>
      if tk.status = TaskStatus.pending then finishCheckout s t tk workerId
      else .error (.checkout (msgNotPending id))

/-- The queue-name branch of `TaskOperations.checkoutTask`. -/
def checkoutByQueue (s : Store) (t : Nat) (qname : String) (workerId : Option String) :
    Except Err (Option Task × Store) :=
  match validateQueueName qname with
  | some e => .error e
  | none =>
    match findQueue s qname with
    | none => .error (.notFound resQueue qname)
    | some _ =>
      match selectPending s qname with
      | none => .ok (none, s)
      | some tk => finishCheckout s t tk workerId

/-- `TaskOperations.checkoutTask` (the whole body runs in one
transaction; an error rolls everything back). -/
def checkoutTask (s : Store) (t : Nat) (target : CheckoutTarget)
    (workerId : Option String) : Except Err (Option Task × Store) :=
  match target with
  | .byId id => checkoutById s t id workerId
  | .byQueue qname => checkoutByQueue s t qname workerId

def msgCannotComplete (id : Nat) : String :=
  "Cannot complete task " ++ natToStr id ++ " - it must be checked out first"

/-- `TaskOperations.completeTask`. -/
def completeTask (s : Store) (t : Nat) (id : Nat) : Except Err (Task × Store) :=
  match validateTaskId id with
  | some e => .error e
  | none =>
  match findTask s id with
  | none => .error (.notFound resTask (natToStr id))
  | some tk =>
    if tk.status = TaskStatus.completed then .ok (tk, s)
    else if !(tk.status = TaskStatus.checked_out) then
      .error (.validation (msgCannotComplete id))
    else
      let tk2 : Task := { tk with
        status := .completed, completedAt := some t, updatedAt := t }
      .ok (tk2, replaceTask s tk2)

/-- `TaskOperations.resetTask`. -/
def resetTask (s : Store) (t : Nat) (id : Nat) : Except Err (Task × Store) :=
  match validateTaskId id with
  | some e => .error e
  | none =>
  match findTask s id with
  | none => .error (.notFound resTask (natToStr id))
  | some tk =>
    if tk.status = TaskStatus.pending then .ok (tk, s)
    else
      let tk2 : Task := { tk with
        status := .pending, workerId := none, checkedOutAt := none,
        completedAt := none, updatedAt := t }
      .ok (tk2, replaceTask s tk2)

/-- `TaskOperations.failTask`: only `status` and `updated_at` are in
the SET list. -/
def failTask (s : Store) (t : Nat) (id : Nat) : Except Err (Task × Store) :=
  match validateTaskId id with
  | some e => .error e
  | none =>
  match findTask s id with
  | none => .error (.notFound resTask (natToStr id))
  | some tk =>
    if tk.status = TaskStatus.failed then .ok (tk, s)
    else
      let tk2 : Task := { tk with status := .failed, updatedAt := t }
      .ok (tk2, replaceTask s tk2)

/-- `TaskOperations.deleteTask`, with the journal cascade. -/
def deleteTask (s : Store) (id : Nat) : Except Err Store :=
  match validateTaskId id with
  | some e => .error e
  | none =>
  match findTask s id with
  | none => .error (.notFound resTask (natToStr id))
  | some _ =>
    .ok { s with
      tasks := s.tasks.filter (fun tk => !(decide (tk.id = id))),
      journal := s.journal.filter (fun j => !(decide (j.taskId = id))) }

/-- Stable insertion of a task into a list sorted by
`priority DESC, created_at ASC` (the inserted task comes from earlier in
the original row order, so it goes before every tie). -/
def insertSorted (a : Task) : List Task → List Task
  | [] => [a]
  | b :: bs => if taskBefore b a then b :: insertSorted a bs else a :: b :: bs

/-- Stable sort realizing `ORDER BY priority DESC, created_at ASC`. -/
def sortTasks : List Task → List Task
  | [] => []
  | a :: rest => insertSorted a (sortTasks rest)

/-- The optional `AND status = ?` filter of listTasks. -/
def statusMatches (status : Option TaskStatus) (tk : Task) : Bool :=
  match status with
  | some st => decide (tk.status = st)
  | none => true

/-- `TaskOperations.listTasks`: JS `if (limit && limit > 0)` appends the
LIMIT clause only for a positive limit. -/
def listTasks (s : Store) (qname : String) (status : Option TaskStatus)
    (limit : Option Int) : Except Err (List Task) :=
  match validateQueueName qname with
  | some e => .error e
  | none =>
    let rows := s.tasks.filter (fun tk =>
      decide (tk.queueName = qname) && statusMatches status tk)
    let sorted := sortTasks rows
    match limit with
    | some l => if 0 < l then .ok (sorted.take l.toNat) else .ok sorted
    | none => .ok sorted

structure CreateTaskJournalRequest where
  taskId : Nat
  status : TaskStatus
  notes : Option String
deriving DecidableEq

/-- `JournalOperations.addJournalEntry`. -/
def addJournalEntry (s : Store) (t : Nat) (req : CreateTaskJournalRequest) :
    Except Err (JournalEntry × Store) :=
  match validateTaskId req.taskId with
  | some e => .error e
  | none =>
  match findTask s req.taskId with
  | none => .error (.notFound resTask (natToStr req.taskId))
  | some _ =>
    let j : JournalEntry := ⟨s.nextJournalId, req.taskId, req.status, orNull req.notes, t⟩
    .ok (j, { s with journal := s.journal ++ [j], nextJournalId := s.nextJournalId + 1 })

/-- Stable insertion by ascending timestamp. -/
def insertJournalSorted (a : JournalEntry) : List JournalEntry → List JournalEntry
  | [] => [a]
  | b :: bs =>
    if b.timestamp < a.timestamp then b :: insertJournalSorted a bs else a :: b :: bs

/-- Stable sort realizing `ORDER BY timestamp ASC`. -/
def sortJournal : List JournalEntry → List JournalEntry
  | [] => []
  | a :: rest => insertJournalSorted a (sortJournal rest)

/-- `JournalOperations.getTaskJournal`. -/
def getTaskJournal (s : Store) (taskId : Nat) : Except Err (List JournalEntry) :=
  match validateTaskId taskId with
  | some e => .error e
  | none => .ok (sortJournal (s.journal.filter (fun j => decide (j.taskId = taskId))))

/-- `JournalOperations.clearTaskJournal`. -/
def clearTaskJournal (s : Store) (taskId : Nat) : Except Err Store :=
  match validateTaskId taskId with
  | some e => .error e
  | none => .ok { s with journal := s.journal.filter (fun j => !(decide (j.taskId = taskId))) }

/-- Store component of a successful result (fallback for the impossible
error case of the concrete runs below). -/
def okStoreOf {α : Type} (r : Except Err (α × Store)) (dflt : Store) : Store :=
  match r with
  | .ok p => p.2
  | .error _ => dflt

/-- Value component of a successful result. -/
def okValOf {α : Type} (r : Except Err (α × Store)) (dflt : α) : α :=
  match r with
  | .ok p => p.1
  | .error _ => dflt

def qn1 : String := "q1"

def wk1 : String := "w1"

def titleA : String := "work"

def demoQueueReq : CreateQueueRequest := ⟨qn1, none, none⟩

def demoTaskReq (p : Int) : CreateTaskRequest := ⟨qn1, titleA, none, some p, none, none⟩

def junkTask : Task :=
  ⟨0, qn1, titleA, none, 5, none, none, .pending, none, 0, none, none, 0⟩

/-- One empty queue `q1`, created at tick 0. -/
def demoS1 : Store := okStoreOf (createQueue initStore 0 demoQueueReq) initStore

/-- Tasks of priorities 3, 9, 5, 7 inserted in that order at ticks 1-4. -/
def demoS2 : Store := okStoreOf (addTask demoS1 1 (demoTaskReq 3)) demoS1

def demoS3 : Store := okStoreOf (addTask demoS2 2 (demoTaskReq 9)) demoS2

def demoS4 : Store := okStoreOf (addTask demoS3 3 (demoTaskReq 5)) demoS3

def demoS5 : Store := okStoreOf (addTask demoS4 4 (demoTaskReq 7)) demoS4

/-- Priorities returned by `n` successive queue-name checkouts (a
checkout error, impossible in these runs, truncates the list). -/
def checkoutSeq (qname : String) (w : Option String) :
    Store → Nat → Nat → List (Option Int)
  | _, _, 0 => []
  | s, t, n + 1 =>
    match checkoutTask s t (.byQueue qname) w with
    | .ok (r, s2) => (r.map Task.priority) :: checkoutSeq qname w s2 (t + 1) n
    | .error _ => []

/-! ## Invariants of the task table (spec §3) -/

/-- `status ∈ {pending, checked_out, completed, failed}` (the CHECK
constraint; exhaustive by construction of `TaskStatus`). -/
def statusValid (tk : Task) : Prop :=
  tk.status = TaskStatus.pending ∨ tk.status = TaskStatus.checked_out ∨
  tk.status = TaskStatus.completed ∨ tk.status = TaskStatus.failed

/-- The per-row invariants that do not mention the rest of the store. -/
def taskFieldsOK (tk : Task) : Prop :=
  (1 ≤ tk.priority ∧ tk.priority ≤ 10) ∧
  statusValid tk ∧
  (tk.status = TaskStatus.pending →
    tk.workerId = none ∧ tk.checkedOutAt = none ∧ tk.completedAt = none) ∧
  (tk.status = TaskStatus.checked_out → tk.checkedOutAt ≠ none) ∧
  (tk.status = TaskStatus.completed → tk.completedAt ≠ none)

/-- A queue of the given name is present in the store. -/
def queueExists (s : Store) (n : String) : Prop := ∃ q ∈ s.queues, q.name = n

/-- The full invariant for one task: row invariants plus the foreign key
to its owning queue. -/
def taskOK (s : Store) (tk : Task) : Prop :=
  taskFieldsOK tk ∧ queueExists s tk.queueName

/-- Every stored task satisfies its invariants. -/
def storeWF (s : Store) : Prop := ∀ tk ∈ s.tasks, taskOK s tk

theorem findQueue_some {s : Store} {n : String} {q : Queue}
    (h : findQueue s n = some q) : q ∈ s.queues ∧ q.name = n := by
  refine ⟨List.mem_of_find?_eq_some h, ?_⟩
  have := List.find?_some h
  simpa using this

theorem findTask_some {s : Store} {id : Nat} {tk : Task}
    (h : findTask s id = some tk) : tk ∈ s.tasks ∧ tk.id = id := by
  refine ⟨List.mem_of_find?_eq_some h, ?_⟩
  have := List.find?_some h
  simpa using this

theorem queueExists_of_findQueue {s : Store} {n : String} {q : Queue}
    (h : findQueue s n = some q) : queueExists s n := by
  obtain ⟨hm, hn⟩ := findQueue_some h
  exact ⟨q, hm, hn⟩

theorem queueExists_append {s : Store} {q : Queue} {n : String}
    (h : queueExists s n) :
    queueExists { s with queues := s.queues ++ [q] } n := by
  obtain ⟨q0, hm, hn⟩ := h
  exact ⟨q0, List.mem_append_left _ hm, hn⟩

theorem queueExists_replaceQueue {s : Store} {q2 : Queue} {n : String}
    (h : queueExists s n) : queueExists (replaceQueue s q2) n := by
  obtain ⟨q, hm, hn⟩ := h
  refine ⟨if q.name = q2.name then q2 else q, ?_, ?_⟩
  · simpa [replaceQueue] using List.mem_map_of_mem (fun x => if x.name = q2.name then q2 else x) hm
  · split
    case isTrue hname => rw [← hname, hn]
    case isFalse _ => exact hn

theorem storeWF_replaceTask {s : Store} {tk2 : Task}
    (hwf : storeWF s) (hf : taskFieldsOK tk2) (hq : queueExists s tk2.queueName) :
    storeWF (replaceTask s tk2) := by
  intro y hy
  simp only [replaceTask, List.mem_map] at hy
  obtain ⟨x, hx, hyx⟩ := hy
  by_cases hid : x.id = tk2.id
  · rw [if_pos hid] at hyx
    subst hyx
    exact ⟨hf, hq⟩
  · rw [if_neg hid] at hyx
    subst hyx
    exact hwf x hx

/-! ## The dispatch order -/

theorem taskBefore_iff {a b : Task} : taskBefore a b = true ↔
    (b.priority < a.priority ∨ (a.priority = b.priority ∧ a.createdAt < b.createdAt)) := by
  simp [taskBefore]

theorem taskBefore_false_iff {a b : Task} : taskBefore a b = false ↔
    ¬(b.priority < a.priority ∨ (a.priority = b.priority ∧ a.createdAt < b.createdAt)) := by
  rw [← taskBefore_iff, Bool.eq_false_iff]

theorem taskBefore_irrefl (a : Task) : taskBefore a a = false := by
  rw [taskBefore_false_iff]
  omega

theorem taskBefore_trans {a b c : Task} (h1 : taskBefore a b = true)
    (h2 : taskBefore b c = true) : taskBefore a c = true := by
  rw [taskBefore_iff] at h1 h2 ⊢
  omega

theorem taskBefore_neg_trans {a b c : Task} (h1 : taskBefore a b = false)
    (h2 : taskBefore b c = false) : taskBefore a c = false := by
  rw [taskBefore_false_iff] at h1 h2 ⊢
  omega

theorem foldl_better_mem :
    ∀ (l : List Task) (acc : Option Task) (tk : Task),
      l.foldl betterCandidate acc = some tk → acc = some tk ∨ tk ∈ l := by
  intro l
  induction l with
  | nil => intro acc tk h; exact Or.inl h
  | cons v rest ih =>
    intro acc tk h
    simp only [List.foldl_cons] at h
    rcases ih (betterCandidate acc v) tk h with h2 | h2
    · cases acc with
      | none =>
        simp only [betterCandidate] at h2
        injection h2 with h3
        exact Or.inr (h3 ▸ List.mem_cons_self v rest)
      | some b =>
        simp only [betterCandidate] at h2
        by_cases hvb : taskBefore v b = true
        · rw [if_pos hvb] at h2
          injection h2 with h3
          exact Or.inr (h3 ▸ List.mem_cons_self v rest)
        · rw [if_neg hvb] at h2
          exact Or.inl h2
    · exact Or.inr (List.mem_cons_of_mem v h2)

theorem foldl_better_optimal :
    ∀ (l : List Task) (acc : Option Task) (tk : Task),
      l.foldl betterCandidate acc = some tk →
      (∀ u ∈ l, taskBefore u tk = false) ∧
      (∀ b, acc = some b → taskBefore b tk = false) := by
  intro l
  induction l with
  | nil =>
    intro acc tk h
    refine ⟨by simp, ?_⟩
    intro b hb
    rw [hb] at h
    injection h with h2
    rw [h2]
    exact taskBefore_irrefl tk
  | cons v rest ih =>
    intro acc tk h
    simp only [List.foldl_cons] at h
    obtain ⟨ih1, ih2⟩ := ih (betterCandidate acc v) tk h
    have hv : taskBefore v tk = false := by
      cases acc with
      | none => exact ih2 v rfl
      | some b =>
        by_cases hvb : taskBefore v b = true
        · exact ih2 v (by simp [betterCandidate, hvb])
        · have hb : taskBefore b tk = false :=
            ih2 b (by simp [betterCandidate, hvb])
          exact taskBefore_neg_trans (Bool.eq_false_iff.mpr hvb) hb
    refine ⟨?_, ?_⟩
    · intro u hu
      rcases List.mem_cons.mp hu with rfl | hu2
      · exact hv
      · exact ih1 u hu2
    · intro b0 hb0
      subst hb0
      by_cases hvb : taskBefore v b0 = true
      · have hvt : taskBefore v tk = false := ih2 v (by simp [betterCandidate, hvb])
        by_contra hb0t
        have hb0t2 : taskBefore b0 tk = true := by
          cases hx : taskBefore b0 tk
          · exact absurd hx hb0t
          · rfl
        have := taskBefore_trans hvb hb0t2
        rw [this] at hvt
        exact Bool.noConfusion hvt
      · exact ih2 b0 (by simp [betterCandidate, hvb])

theorem selectPending_mem {s : Store} {qname : String} {tk : Task}
    (h : selectPending s qname = some tk) :
    tk ∈ s.tasks ∧ tk.queueName = qname ∧ tk.status = TaskStatus.pending := by
  unfold selectPending at h
  rcases foldl_better_mem _ none tk h with h2 | h2
  · exact Option.noConfusion h2
  · have := List.mem_filter.mp h2
    refine ⟨this.1, ?_, ?_⟩
    · have := this.2
      simp only [Bool.and_eq_true, decide_eq_true_eq] at this
      exact this.1
    · have := this.2
      simp only [Bool.and_eq_true, decide_eq_true_eq] at this
      exact this.2

theorem selectPending_optimal {s : Store} {qname : String} {tk : Task}
    (h : selectPending s qname = some tk) :
    ∀ u ∈ s.tasks, u.queueName = qname → u.status = TaskStatus.pending →
      taskBefore u tk = false := by
  intro u hu hq hst
  unfold selectPending at h
  have hmem : u ∈ s.tasks.filter (fun tk =>
      decide (tk.queueName = qname) && decide (tk.status = TaskStatus.pending)) := by
    refine List.mem_filter.mpr ⟨hu, ?_⟩
    simp [hq, hst]
  exact (foldl_better_optimal _ none tk h).1 u hmem

/-! ## Invariant preservation, operation by operation -/

theorem priority_bound_of_validate {p? : Option Int}
    (h : (match p? with | some p => validatePriority p | none => none) = none) :
    1 ≤ p?.getD 5 ∧ p?.getD 5 ≤ 10 := by
  cases p? with
  | none => simp
  | some p =>
    simp only [Option.getD_some]
    have h2 : validatePriority p = none := h
    unfold validatePriority at h2
    split at h2
    · exact Option.noConfusion h2
    · omega

theorem storeWF_createQueue {s : Store} {t : Nat} {req : CreateQueueRequest}
    {q : Queue} {s2 : Store} (hwf : storeWF s)
    (h : createQueue s t req = .ok (q, s2)) : storeWF s2 := by
  unfold createQueue at h
  split at h
  · exact Except.noConfusion h
  split at h
  · exact Except.noConfusion h
  simp only [Except.ok.injEq, Prod.mk.injEq] at h
  obtain ⟨h1, h2⟩ := h
  subst h2
  intro tk hm
  obtain ⟨hf, hq⟩ := hwf tk hm
  exact ⟨hf, queueExists_append hq⟩

theorem storeWF_updateQueue {s : Store} {t : Nat} {name : String}
    {req : UpdateQueueRequest} {q : Queue} {s2 : Store} (hwf : storeWF s)
    (h : updateQueue s t name req = .ok (q, s2)) : storeWF s2 := by
  unfold updateQueue at h
  split at h
  · exact Except.noConfusion h
  split at h
  · exact Except.noConfusion h
  split at h
  · simp only [Except.ok.injEq, Prod.mk.injEq] at h
    obtain ⟨h1, h2⟩ := h
    subst h2
    exact hwf
  · simp only [Except.ok.injEq, Prod.mk.injEq] at h
    obtain ⟨h1, h2⟩ := h
    subst h2
    intro tk hm
    obtain ⟨hf, hq⟩ := hwf tk hm
    exact ⟨hf, queueExists_replaceQueue hq⟩

theorem storeWF_deleteQueue {s : Store} {name : String} {s2 : Store}
    (hwf : storeWF s) (h : deleteQueue s name = .ok s2) : storeWF s2 := by
  unfold deleteQueue at h
  split at h
  · exact Except.noConfusion h
  split at h
  · exact Except.noConfusion h
  simp only [Except.ok.injEq] at h
  subst h
  intro tk hm
  simp only [List.mem_filter, Bool.not_eq_eq_eq_not, Bool.not_true,
    decide_eq_false_iff_not] at hm
  obtain ⟨hm, hne⟩ := hm
  obtain ⟨hf, q0, hq0, hq0n⟩ := hwf tk hm
  refine ⟨hf, q0, ?_, hq0n⟩
  simp only [List.mem_filter, Bool.not_eq_eq_eq_not, Bool.not_true,
    decide_eq_false_iff_not]
  exact ⟨hq0, fun hc => hne (hq0n ▸ hc)⟩

theorem storeWF_addTask {s : Store} {t : Nat} {req : CreateTaskRequest}
    {tk : Task} {s2 : Store} (hwf : storeWF s)
    (h : addTask s t req = .ok (tk, s2)) : storeWF s2 := by
  unfold addTask at h
  split at h
  · exact Except.noConfusion h
  split at h
  · exact Except.noConfusion h
  split at h
  · exact Except.noConfusion h
  case _ _ hpr =>
  split at h
  · exact Except.noConfusion h
  case _ q hfq =>
  simp only [Except.ok.injEq, Prod.mk.injEq] at h
  obtain ⟨h1, h2⟩ := h
  subst h2
  intro y hy
  rcases List.mem_append.mp hy with hy2 | hy2
  · obtain ⟨hf, hq⟩ := hwf y hy2
    exact ⟨hf, hq⟩
  · have hy3 : y = ⟨s.nextTaskId, req.queueName, req.title, orNull req.description,
        req.priority.getD 5, req.parameters, orNull req.instructions,
        TaskStatus.pending, none, t, none, none, t⟩ := by
      simpa using hy2
    subst hy3
    refine ⟨⟨?_, Or.inl rfl, ?_, ?_, ?_⟩, queueExists_of_findQueue hfq⟩
    · exact priority_bound_of_validate hpr
    · intro _; exact ⟨rfl, rfl, rfl⟩
    · intro hc; exact TaskStatus.noConfusion hc
    · intro hc; exact TaskStatus.noConfusion hc

theorem storeWF_updateTask {s : Store} {t id : Nat} {req : UpdateTaskRequest}
    {tk2 : Task} {s2 : Store} (hwf : storeWF s)
    (h : updateTask s t id req = .ok (tk2, s2)) : storeWF s2 := by
  unfold updateTask at h
  split at h
  · exact Except.noConfusion h
  split at h
  · exact Except.noConfusion h
  case _ tk hfind =>
  split at h
  · exact Except.noConfusion h
  split at h
  · exact Except.noConfusion h
  case _ _ hpr =>
  simp only [Except.ok.injEq, Prod.mk.injEq] at h
  obtain ⟨h1, h2⟩ := h
  subst h2
  subst h1
  obtain ⟨⟨hb, hsv, hp, hc, hco⟩, hq⟩ := hwf tk (findTask_some hfind).1
  apply storeWF_replaceTask hwf
  · refine ⟨?_, hsv, hp, hc, hco⟩
    cases hpri : req.priority with
    | none => simpa [hpri] using hb
    | some p =>
      have := priority_bound_of_validate hpr
      rw [hpri] at this
      simpa [hpri] using this
  · exact hq

theorem storeWF_finishCheckout {s : Store} {t : Nat} {tk : Task}
    {w : Option String} {r : Option Task} {s2 : Store} (hwf : storeWF s)
    (hmem : tk ∈ s.tasks) (h : finishCheckout s t tk w = .ok (r, s2)) :
    storeWF s2 := by
  unfold finishCheckout at h
  split at h
  · simp only [Except.ok.injEq, Prod.mk.injEq] at h
    obtain ⟨h1, h2⟩ := h
    subst h2
    obtain ⟨⟨hb, _, _, _, _⟩, hq⟩ := hwf tk hmem
    apply storeWF_replaceTask hwf
    · refine ⟨hb, Or.inr (Or.inl rfl), ?_, ?_, ?_⟩
      · intro hcon; exact TaskStatus.noConfusion hcon
      · intro _; simp
      · intro hcon; exact TaskStatus.noConfusion hcon
    · exact hq
  · exact Except.noConfusion h

theorem storeWF_checkoutById {s : Store} {t id : Nat} {w : Option String}
    {r : Option Task} {s2 : Store} (hwf : storeWF s)
    (h : checkoutById s t id w = .ok (r, s2)) : storeWF s2 := by
  unfold checkoutById at h
  split at h
  · exact Except.noConfusion h
  split at h
  · exact Except.noConfusion h
  case _ tk hfind =>
  split at h
  · exact storeWF_finishCheckout hwf (findTask_some hfind).1 h
  · exact Except.noConfusion h

theorem storeWF_checkoutByQueue {s : Store} {t : Nat} {qname : String}
    {w : Option String} {r : Option Task} {s2 : Store} (hwf : storeWF s)
    (h : checkoutByQueue s t qname w = .ok (r, s2)) : storeWF s2 := by
  unfold checkoutByQueue at h
  split at h
  · exact Except.noConfusion h
  split at h
  · exact Except.noConfusion h
  split at h
  · simp only [Except.ok.injEq, Prod.mk.injEq] at h
    obtain ⟨h1, h2⟩ := h
    subst h2
    exact hwf
  case _ tk hsel =>
  exact storeWF_finishCheckout hwf (selectPending_mem hsel).1 h

theorem storeWF_checkoutTask {s : Store} {t : Nat} {target : CheckoutTarget}
    {w : Option String} {r : Option Task} {s2 : Store} (hwf : storeWF s)
    (h : checkoutTask s t target w = .ok (r, s2)) : storeWF s2 := by
  cases target with
  | byId id => exact storeWF_checkoutById hwf h
  | byQueue qname => exact storeWF_checkoutByQueue hwf h

theorem storeWF_completeTask {s : Store} {t id : Nat} {tk2 : Task} {s2 : Store}
    (hwf : storeWF s) (h : completeTask s t id = .ok (tk2, s2)) : storeWF s2 := by
  unfold completeTask at h
  split at h
  · exact Except.noConfusion h
  split at h
  · exact Except.noConfusion h
  case _ tk hfind =>
  split at h
  · simp only [Except.ok.injEq, Prod.mk.injEq] at h
    obtain ⟨h1, h2⟩ := h
    subst h2
    exact hwf
  split at h
  · exact Except.noConfusion h
  simp only [Except.ok.injEq, Prod.mk.injEq] at h
  obtain ⟨h1, h2⟩ := h
  subst h2
  obtain ⟨⟨hb, _, _, _, _⟩, hq⟩ := hwf tk (findTask_some hfind).1
  apply storeWF_replaceTask hwf
  · refine ⟨hb, Or.inr (Or.inr (Or.inl rfl)), ?_, ?_, ?_⟩
    · intro hcon; exact TaskStatus.noConfusion hcon
    · intro hcon; exact TaskStatus.noConfusion hcon
    · intro _; simp
  · exact hq

theorem storeWF_resetTask {s : Store} {t id : Nat} {tk2 : Task} {s2 : Store}
    (hwf : storeWF s) (h : resetTask s t id = .ok (tk2, s2)) : storeWF s2 := by
  unfold resetTask at h
  split at h
  · exact Except.noConfusion h
  split at h
  · exact Except.noConfusion h
  case _ tk hfind =>
  split at h
  · simp only [Except.ok.injEq, Prod.mk.injEq] at h
    obtain ⟨h1, h2⟩ := h
    subst h2
    exact hwf
  simp only [Except.ok.injEq, Prod.mk.injEq] at h
  obtain ⟨h1, h2⟩ := h
  subst h2
  obtain ⟨⟨hb, _, _, _, _⟩, hq⟩ := hwf tk (findTask_some hfind).1
  apply storeWF_replaceTask hwf
  · refine ⟨hb, Or.inl rfl, ?_, ?_, ?_⟩
    · intro _; exact ⟨rfl, rfl, rfl⟩
    · intro hcon; exact TaskStatus.noConfusion hcon
    · intro hcon; exact TaskStatus.noConfusion hcon
  · exact hq

theorem storeWF_failTask {s : Store} {t id : Nat} {tk2 : Task} {s2 : Store}
    (hwf : storeWF s) (h : failTask s t id = .ok (tk2, s2)) : storeWF s2 := by
  unfold failTask at h
  split at h
  · exact Except.noConfusion h
  split at h
  · exact Except.noConfusion h
  case _ tk hfind =>
  split at h
  · simp only [Except.ok.injEq, Prod.mk.injEq] at h
    obtain ⟨h1, h2⟩ := h
    subst h2
    exact hwf
  simp only [Except.ok.injEq, Prod.mk.injEq] at h
  obtain ⟨h1, h2⟩ := h
  subst h2
  obtain ⟨⟨hb, _, _, _, _⟩, hq⟩ := hwf tk (findTask_some hfind).1
  apply storeWF_replaceTask hwf
  · refine ⟨hb, Or.inr (Or.inr (Or.inr rfl)), ?_, ?_, ?_⟩
    · intro hcon; exact TaskStatus.noConfusion hcon
    · intro hcon; exact TaskStatus.noConfusion hcon
    · intro hcon; exact TaskStatus.noConfusion hcon
  · exact hq

theorem storeWF_deleteTask {s : Store} {id : Nat} {s2 : Store}
    (hwf : storeWF s) (h : deleteTask s id = .ok s2) : storeWF s2 := by
  unfold deleteTask at h
  split at h
  · exact Except.noConfusion h
  split at h
  · exact Except.noConfusion h
  simp only [Except.ok.injEq] at h
  subst h
  intro tk hm
  simp only [List.mem_filter] at hm
  obtain ⟨hf, hq⟩ := hwf tk hm.1
  exact ⟨hf, hq⟩

theorem storeWF_addJournalEntry {s : Store} {t : Nat}
    {req : CreateTaskJournalRequest} {j : JournalEntry} {s2 : Store}
    (hwf : storeWF s) (h : addJournalEntry s t req = .ok (j, s2)) :
    storeWF s2 := by
  unfold addJournalEntry at h
  split at h
  · exact Except.noConfusion h
  split at h
  · exact Except.noConfusion h
  simp only [Except.ok.injEq, Prod.mk.injEq] at h
  obtain ⟨h1, h2⟩ := h
  subst h2
  exact hwf

theorem storeWF_clearTaskJournal {s : Store} {taskId : Nat} {s2 : Store}
    (hwf : storeWF s) (h : clearTaskJournal s taskId = .ok s2) : storeWF s2 := by
  unfold clearTaskJournal at h
  split at h
  · exact Except.noConfusion h
  simp only [Except.ok.injEq] at h
  subst h
  exact hwf

/-- Store states reachable from a fresh database by the public mutating
operations (a failed operation rolls back and leaves the store as it
was, so only successful outcomes produce new states). -/
inductive Reachable : Store → Prop
  | init : Reachable initStore
  | createQueueStep {s : Store} {t : Nat} {req : CreateQueueRequest} {q : Queue}
      {s2 : Store} : Reachable s → createQueue s t req = .ok (q, s2) → Reachable s2
  | updateQueueStep {s : Store} {t : Nat} {name : String} {req : UpdateQueueRequest}
      {q : Queue} {s2 : Store} :
      Reachable s → updateQueue s t name req = .ok (q, s2) → Reachable s2
  | deleteQueueStep {s : Store} {name : String} {s2 : Store} :
      Reachable s → deleteQueue s name = .ok s2 → Reachable s2
  | addTaskStep {s : Store} {t : Nat} {req : CreateTaskRequest} {tk : Task}
      {s2 : Store} : Reachable s → addTask s t req = .ok (tk, s2) → Reachable s2
  | updateTaskStep {s : Store} {t id : Nat} {req : UpdateTaskRequest} {tk : Task}
      {s2 : Store} : Reachable s → updateTask s t id req = .ok (tk, s2) → Reachable s2
  | checkoutTaskStep {s : Store} {t : Nat} {target : CheckoutTarget}
      {w : Option String} {r : Option Task} {s2 : Store} :
      Reachable s → checkoutTask s t target w = .ok (r, s2) → Reachable s2
  | completeTaskStep {s : Store} {t id : Nat} {tk : Task} {s2 : Store} :
      Reachable s → completeTask s t id = .ok (tk, s2) → Reachable s2
  | resetTaskStep {s : Store} {t id : Nat} {tk : Task} {s2 : Store} :
      Reachable s → resetTask s t id = .ok (tk, s2) → Reachable s2
  | failTaskStep {s : Store} {t id : Nat} {tk : Task} {s2 : Store} :
      Reachable s → failTask s t id = .ok (tk, s2) → Reachable s2
  | deleteTaskStep {s : Store} {id : Nat} {s2 : Store} :
      Reachable s → deleteTask s id = .ok s2 → Reachable s2
  | addJournalEntryStep {s : Store} {t : Nat} {req : CreateTaskJournalRequest}
      {j : JournalEntry} {s2 : Store} :
      Reachable s → addJournalEntry s t req = .ok (j, s2) → Reachable s2
  | clearTaskJournalStep {s : Store} {taskId : Nat} {s2 : Store} :
      Reachable s → clearTaskJournal s taskId = .ok s2 → Reachable s2

theorem storeWF_of_reachable {s : Store} (h : Reachable s) : storeWF s := by
  induction h with
  | init => intro tk hm; exact absurd hm (List.not_mem_nil tk)
  | createQueueStep _ hop ih => exact storeWF_createQueue ih hop
  | updateQueueStep _ hop ih => exact storeWF_updateQueue ih hop
  | deleteQueueStep _ hop ih => exact storeWF_deleteQueue ih hop
  | addTaskStep _ hop ih => exact storeWF_addTask ih hop
  | updateTaskStep _ hop ih => exact storeWF_updateTask ih hop
  | checkoutTaskStep _ hop ih => exact storeWF_checkoutTask ih hop
  | completeTaskStep _ hop ih => exact storeWF_completeTask ih hop
  | resetTaskStep _ hop ih => exact storeWF_resetTask ih hop
  | failTaskStep _ hop ih => exact storeWF_failTask ih hop
  | deleteTaskStep _ hop ih => exact storeWF_deleteTask ih hop
  | addJournalEntryStep _ hop ih => exact storeWF_addJournalEntry ih hop
  | clearTaskJournalStep _ hop ih => exact storeWF_clearTaskJournal ih hop

theorem selectPending_none {s : Store} {q : String}
    (h : ∀ u ∈ s.tasks, u.queueName = q → u.status ≠ TaskStatus.pending) :
    selectPending s q = none := by
  unfold selectPending
  have hnil : s.tasks.filter (fun tk =>
      decide (tk.queueName = q) && decide (tk.status = TaskStatus.pending)) = [] := by
    rw [List.filter_eq_nil_iff]
    intro u hu
    simp only [Bool.and_eq_true, decide_eq_true_eq, not_and]
    intro hq2
    exact h u hu hq2
  rw [hnil]
  rfl

def junkQueue : Queue := ⟨qn1, none, none, 0, 0⟩

/-- The checked-out task and store after one queue-name checkout on the
four-task demo store. -/
def demoS6 : Store :=
  okStoreOf (checkoutTask demoS5 10 (CheckoutTarget.byQueue qn1) (some wk1)) demoS5

theorem reachable_demoS1 : Reachable demoS1 :=
  @Reachable.createQueueStep initStore 0 demoQueueReq
    (okValOf (createQueue initStore 0 demoQueueReq) junkQueue) demoS1
    Reachable.init rfl

theorem reachable_demoS2 : Reachable demoS2 :=
  @Reachable.addTaskStep demoS1 1 (demoTaskReq 3)
    (okValOf (addTask demoS1 1 (demoTaskReq 3)) junkTask) demoS2
    reachable_demoS1 rfl

theorem reachable_demoS3 : Reachable demoS3 :=
  @Reachable.addTaskStep demoS2 2 (demoTaskReq 9)
    (okValOf (addTask demoS2 2 (demoTaskReq 9)) junkTask) demoS3
    reachable_demoS2 rfl

theorem reachable_demoS4 : Reachable demoS4 :=
  @Reachable.addTaskStep demoS3 3 (demoTaskReq 5)
    (okValOf (addTask demoS3 3 (demoTaskReq 5)) junkTask) demoS4
    reachable_demoS3 rfl

theorem reachable_demoS5 : Reachable demoS5 :=
  @Reachable.addTaskStep demoS4 4 (demoTaskReq 7)
    (okValOf (addTask demoS4 4 (demoTaskReq 7)) junkTask) demoS5
    reachable_demoS4 rfl

/-- The task with id 2 of the demo stores (the priority-9 task). -/
def demoTask2 : Task := (findTask demoS6 2).getD junkTask

theorem reachable_demoS6 : Reachable demoS6 :=
  @Reachable.checkoutTaskStep demoS5 10 (CheckoutTarget.byQueue qn1) (some wk1)
    (okValOf (checkoutTask demoS5 10 (CheckoutTarget.byQueue qn1) (some wk1)) none) demoS6
    reachable_demoS5 rfl

/-- C1: checkout by queue name, under one transaction, fails with
`NotFound` when the queue is absent; returns `null` (a normal outcome)
when the queue owns no pending task; otherwise picks the pending task of
the queue that no other pending task of the queue beats in the
`priority DESC, created_at ASC` order, moves it from `pending` to
`checked_out` stamping `worker_id` and a non-null `checked_out_at`, and
returns the updated task; the guarded update (`WHERE id = ? AND status =
'pending'`) raises `Checkout` when it affects zero rows (non-pending
victim); and on the demo store with priorities [3, 9, 5, 7] inserted in
that order, five successive checkouts yield 9, 7, 5, 3, null. -/
theorem C1_checkoutByQueue (s : Store) (t : Nat) (q : String) (w : Option String)
    (hq : validateQueueName q = none) (hw : normWorker w = w) :
    (findQueue s q = none →
      checkoutTask s t (CheckoutTarget.byQueue q) w = .error (Err.notFound resQueue q)) ∧
    (findQueue s q ≠ none →
      (∀ u ∈ s.tasks, u.queueName = q → u.status ≠ TaskStatus.pending) →
      checkoutTask s t (CheckoutTarget.byQueue q) w = .ok (none, s)) ∧
    (∀ tk, findQueue s q ≠ none → selectPending s q = some tk →
      tk ∈ s.tasks ∧ tk.queueName = q ∧ tk.status = TaskStatus.pending ∧
      (∀ u ∈ s.tasks, u.queueName = q → u.status = TaskStatus.pending →
        taskBefore u tk = false) ∧
      checkoutTask s t (CheckoutTarget.byQueue q) w =
        .ok (some { tk with
              status := TaskStatus.checked_out, workerId := w,
              checkedOutAt := some t, updatedAt := t },
          replaceTask s { tk with
              status := TaskStatus.checked_out, workerId := w,
              checkedOutAt := some t, updatedAt := t })) ∧
    (∀ tk, tk.status ≠ TaskStatus.pending →
      finishCheckout s t tk w = .error (Err.checkout (msgCheckoutRace tk.id))) ∧
    checkoutSeq qn1 (some wk1) demoS5 10 5 = [some 9, some 7, some 5, some 3, none] := by
  refine ⟨?_, ?_, ?_, ?_, by decide⟩
  · intro hfq
    show checkoutByQueue s t q w = _
    simp only [checkoutByQueue, hq, hfq]
  · intro hfq hnone
    obtain ⟨qq, hqq⟩ := Option.ne_none_iff_exists'.mp hfq
    show checkoutByQueue s t q w = _
    simp only [checkoutByQueue, hq, hqq, selectPending_none hnone]
  · intro tk hfq hsel
    obtain ⟨qq, hqq⟩ := Option.ne_none_iff_exists'.mp hfq
    obtain ⟨hmem, hqn, hst⟩ := selectPending_mem hsel
    refine ⟨hmem, hqn, hst, selectPending_optimal hsel, ?_⟩
    show checkoutByQueue s t q w = _
    simp only [checkoutByQueue, hq, hqq, hsel, finishCheckout, hst, if_true, hw]
  · intro tk hst
    simp only [finishCheckout, if_neg hst]

/-- Witness for C1 at the demo store: queue `q1` is valid and present,
and the five successive checkouts return priorities 9, 7, 5, 3, null. -/
theorem C1_checkoutByQueue_witness :
    validateQueueName qn1 = none ∧ normWorker (some wk1) = some wk1 ∧
    checkoutSeq qn1 (some wk1) demoS5 10 5 = [some 9, some 7, some 5, some 3, none] :=
  ⟨by decide, by decide,
    (C1_checkoutByQueue demoS5 10 qn1 (some wk1) (by decide) (by decide)).2.2.2.2⟩

/-- C2: every store state reachable by the public operations satisfies,
for every stored task: priority is in [1,10]; status is one of pending,
checked_out, completed, failed; a pending task has null worker_id,
checked_out_at and completed_at; a checked-out task has a non-null
checked_out_at; a completed task has a non-null completed_at; and the
task's owning queue exists in the store. -/
theorem C2_reachable_invariant (s : Store) (h : Reachable s) :
    ∀ tk ∈ s.tasks,
      (1 ≤ tk.priority ∧ tk.priority ≤ 10) ∧
      (tk.status = TaskStatus.pending ∨ tk.status = TaskStatus.checked_out ∨
        tk.status = TaskStatus.completed ∨ tk.status = TaskStatus.failed) ∧
      (tk.status = TaskStatus.pending →
        tk.workerId = none ∧ tk.checkedOutAt = none ∧ tk.completedAt = none) ∧
      (tk.status = TaskStatus.checked_out → tk.checkedOutAt ≠ none) ∧
      (tk.status = TaskStatus.completed → tk.completedAt ≠ none) ∧
      (∃ qu ∈ s.queues, qu.name = tk.queueName) := by
  intro tk hm
  obtain ⟨⟨hb, hsv, hp, hc, hco⟩, hqe⟩ := storeWF_of_reachable h tk hm
  exact ⟨hb, hsv, hp, hc, hco, hqe⟩

/-- Witness for C2 at a demo store reached by create-queue, four
add-tasks and one checkout, instantiated at the checked-out task 2. -/
theorem C2_witness :
    (1 ≤ demoTask2.priority ∧ demoTask2.priority ≤ 10) ∧
    (demoTask2.status = TaskStatus.pending ∨
      demoTask2.status = TaskStatus.checked_out ∨
      demoTask2.status = TaskStatus.completed ∨
      demoTask2.status = TaskStatus.failed) ∧
    (demoTask2.status = TaskStatus.pending →
      demoTask2.workerId = none ∧ demoTask2.checkedOutAt = none ∧
      demoTask2.completedAt = none) ∧
    (demoTask2.status = TaskStatus.checked_out → demoTask2.checkedOutAt ≠ none) ∧
    (demoTask2.status = TaskStatus.completed → demoTask2.completedAt ≠ none) ∧
    (∃ qu ∈ demoS6.queues, qu.name = demoTask2.queueName) :=
  C2_reachable_invariant demoS6 reachable_demoS6 demoTask2 (by decide)

theorem validateTaskId_none {id : Nat} (h : 0 < id) : validateTaskId id = none := by
  unfold validateTaskId
  rw [if_neg (by omega)]

/-- C3: completeTask fails with NotFound when no task with the id exists;
returns the current snapshot unchanged when the task is already
completed; fails with Validation when the task is pending or failed; and
when the task is checked out it sets status completed, stamps a non-null
completed_at, and returns the updated task. -/
theorem C3_completeTask (s : Store) (t : Nat) (id : Nat) (hid : 0 < id) :
    (findTask s id = none →
      completeTask s t id = .error (Err.notFound resTask (natToStr id))) ∧
    (∀ tk, findTask s id = some tk →
      (tk.status = TaskStatus.completed → completeTask s t id = .ok (tk, s)) ∧
      (tk.status = TaskStatus.pending ∨ tk.status = TaskStatus.failed →
        completeTask s t id = .error (Err.validation (msgCannotComplete id))) ∧
      (tk.status = TaskStatus.checked_out →
        completeTask s t id =
          .ok ({ tk with
                status := TaskStatus.completed, completedAt := some t, updatedAt := t },
            replaceTask s { tk with
                status := TaskStatus.completed, completedAt := some t,
                updatedAt := t }))) := by
  have hv := validateTaskId_none hid
  refine ⟨?_, ?_⟩
  · intro hfind
    simp only [completeTask, hv, hfind]
  · intro tk hfind
    refine ⟨?_, ?_, ?_⟩
    · intro hst
      simp only [completeTask, hv, hfind, hst, if_true]
    · intro hst
      rcases hst with hst | hst <;>
        simp only [completeTask, hv, hfind, hst] <;> rfl
    · intro hst
      simp only [completeTask, hv, hfind, hst]
      rfl

/-- Witness for C3: completing the checked-out task 2 of the demo store
stamps completed_at and returns the updated task. -/
theorem C3_completeTask_witness :
    completeTask demoS6 11 2 =
      .ok ({ demoTask2 with
            status := TaskStatus.completed, completedAt := some 11, updatedAt := 11 },
        replaceTask demoS6 { demoTask2 with
            status := TaskStatus.completed, completedAt := some 11, updatedAt := 11 }) :=
  ((C3_completeTask demoS6 11 2 (by decide)).2 demoTask2 (by decide)).2.2 (by decide)

/-- C4: resetTask on any existing task returns a task that is pending
with null worker_id, checked_out_at and completed_at; when the task is
already pending it is idempotent and leaves the stored row untouched
(the pending-implies-null hypothesis is the stored invariant of C2). -/
theorem C4_resetTask (s : Store) (t : Nat) (id : Nat) (tk : Task) (hid : 0 < id)
    (hfind : findTask s id = some tk)
    (hinv : tk.status = TaskStatus.pending →
      tk.workerId = none ∧ tk.checkedOutAt = none ∧ tk.completedAt = none) :
    ∃ tk2 s2, resetTask s t id = .ok (tk2, s2) ∧
      tk2.status = TaskStatus.pending ∧ tk2.workerId = none ∧
      tk2.checkedOutAt = none ∧ tk2.completedAt = none ∧
      (tk.status = TaskStatus.pending → tk2 = tk ∧ s2 = s) := by
  have hv := validateTaskId_none hid
  by_cases hst : tk.status = TaskStatus.pending
  · refine ⟨tk, s, ?_, hst, (hinv hst).1, (hinv hst).2.1, (hinv hst).2.2,
      fun _ => ⟨rfl, rfl⟩⟩
    simp only [resetTask, hv, hfind, if_pos hst]
  · refine ⟨{ tk with
        status := TaskStatus.pending, workerId := none, checkedOutAt := none,
        completedAt := none, updatedAt := t },
      replaceTask s { tk with
        status := TaskStatus.pending, workerId := none, checkedOutAt := none,
        completedAt := none, updatedAt := t }, ?_, rfl, rfl, rfl, rfl,
      fun hc => absurd hc hst⟩
    simp only [resetTask, hv, hfind, if_neg hst]

/-- Witness for C4: resetting the checked-out task 2 of the demo store. -/
theorem C4_resetTask_witness :
    ∃ tk2 s2, resetTask demoS6 11 2 = .ok (tk2, s2) ∧
      tk2.status = TaskStatus.pending ∧ tk2.workerId = none ∧
      tk2.checkedOutAt = none ∧ tk2.completedAt = none ∧
      (demoTask2.status = TaskStatus.pending → tk2 = demoTask2 ∧ s2 = demoS6) :=
  C4_resetTask demoS6 11 2 demoTask2 (by decide) (by decide) (by decide)

/-- C5: checkout by task id fails with NotFound when no task with the id
exists; fails with Checkout when the task's status is anything other
than pending; and otherwise performs the guarded update and returns the
task checked out with worker_id = w and a non-null checked_out_at. -/
theorem C5_checkoutById (s : Store) (t : Nat) (id : Nat) (w : Option String)
    (hid : 0 < id) (hw : normWorker w = w) :
    (findTask s id = none →
      checkoutTask s t (CheckoutTarget.byId id) w =
        .error (Err.notFound resTask (natToStr id))) ∧
    (∀ tk, findTask s id = some tk → tk.status ≠ TaskStatus.pending →
      checkoutTask s t (CheckoutTarget.byId id) w =
        .error (Err.checkout (msgNotPending id))) ∧
    (∀ tk, findTask s id = some tk → tk.status = TaskStatus.pending →
      checkoutTask s t (CheckoutTarget.byId id) w =
        .ok (some { tk with
              status := TaskStatus.checked_out, workerId := w,
              checkedOutAt := some t, updatedAt := t },
          replaceTask s { tk with
              status := TaskStatus.checked_out, workerId := w,
              checkedOutAt := some t, updatedAt := t })) := by
  have hv := validateTaskId_none hid
  refine ⟨?_, ?_, ?_⟩
  · intro hfind
    show checkoutById s t id w = _
    simp only [checkoutById, hv, hfind]
  · intro tk hfind hst
    show checkoutById s t id w = _
    simp only [checkoutById, hv, hfind, if_neg hst]
  · intro tk hfind hst
    show checkoutById s t id w = _
    simp only [checkoutById, hv, hfind, if_pos hst, finishCheckout, hst, if_true, hw]

/-- Witness for C5: checking out the pending task 1 of the demo store by
its id. -/
theorem C5_checkoutById_witness :
    checkoutTask demoS5 20 (CheckoutTarget.byId 1) (some wk1) =
      .ok (some { (findTask demoS5 1).getD junkTask with
            status := TaskStatus.checked_out, workerId := some wk1,
            checkedOutAt := some 20, updatedAt := 20 },
        replaceTask demoS5 { (findTask demoS5 1).getD junkTask with
            status := TaskStatus.checked_out, workerId := some wk1,
            checkedOutAt := some 20, updatedAt := 20 }) :=
  (C5_checkoutById demoS5 20 1 (some wk1) (by decide) (by decide)).2.2
    ((findTask demoS5 1).getD junkTask) (by decide) (by decide)

def qn2 : String := "q2"

/-- A store with one queue `q2` having description A and instructions B. -/
def demoQdesc : Store :=
  okStoreOf (createQueue initStore 0 ⟨qn2, some (r"A"), some (r"B")⟩) initStore

/-- C6: updateQueue has partial-update semantics: an absent field
preserves the stored value, an empty-string field clears it to null,
an empty patch leaves the stored row untouched and returns the current
snapshot, and a missing queue fails with NotFound; on a queue with
description A and instructions B, patching description to X yields
(X, B) and patching description to the empty string yields (null, B). -/
theorem C6_updateQueue (s : Store) (t : Nat) (name : String)
    (req : UpdateQueueRequest) (hn : validateQueueName name = none) :
    (findQueue s name = none →
      updateQueue s t name req = .error (Err.notFound resQueue name)) ∧
    (∀ q, findQueue s name = some q →
      (req.description = none ∧ req.instructions = none →
        updateQueue s t name req = .ok (q, s)) ∧
      (∀ q2 s2, updateQueue s t name req = .ok (q2, s2) →
        (req.description = none → q2.description = q.description) ∧
        (∀ d, req.description = some d →
          q2.description = (if d = "" then none else some d)) ∧
        (req.instructions = none → q2.instructions = q.instructions) ∧
        (∀ i, req.instructions = some i →
          q2.instructions = (if i = "" then none else some i)))) ∧
    (updateQueue demoQdesc 1 qn2 ⟨some (r"X"), none⟩).map
        (fun p => (p.1.description, p.1.instructions)) =
      .ok (some (r"X"), some (r"B")) ∧
    (updateQueue demoQdesc 1 qn2 ⟨some (r""), none⟩).map
        (fun p => (p.1.description, p.1.instructions)) =
      .ok (none, some (r"B")) := by
  refine ⟨?_, ?_, rfl, rfl⟩
  · intro hfq
    simp only [updateQueue, hn, hfq]
  · intro q hfq
    by_cases hboth : req.description = none ∧ req.instructions = none
    · refine ⟨fun _ => ?_, ?_⟩
      · simp only [updateQueue, hn, hfq, if_pos hboth]
      · intro q2 s2 hok
        simp only [updateQueue, hn, hfq, if_pos hboth, Except.ok.injEq,
          Prod.mk.injEq] at hok
        obtain ⟨h1, h2⟩ := hok
        subst h1
        refine ⟨fun _ => rfl, ?_, fun _ => rfl, ?_⟩
        · intro d hd
          exact absurd hd (by rw [hboth.1]; exact Option.noConfusion)
        · intro i hi
          exact absurd hi (by rw [hboth.2]; exact Option.noConfusion)
    · refine ⟨fun hc => absurd hc hboth, ?_⟩
      intro q2 s2 hok
      simp only [updateQueue, hn, hfq, if_neg hboth, Except.ok.injEq,
        Prod.mk.injEq] at hok
      obtain ⟨h1, h2⟩ := hok
      subst h1
      refine ⟨?_, ?_, ?_, ?_⟩
      · intro hd
        simp only [patchField, hd]
      · intro d hd
        simp only [patchField, hd]
      · intro hi
        simp only [patchField, hi]
      · intro i hi
        simp only [patchField, hi]

/-- Witness for C6: on the demo queue (description A, instructions B),
a patch is applied with the claimed field semantics. -/
theorem C6_updateQueue_witness :
    validateQueueName qn2 = none ∧
    (updateQueue demoQdesc 1 qn2 ⟨some (r"X"), none⟩).map
        (fun p => (p.1.description, p.1.instructions)) =
      .ok (some (r"X"), some (r"B")) :=
  ⟨by decide, (C6_updateQueue demoQdesc 1 qn2 ⟨some (r"X"), none⟩ (by decide)).2.2.1⟩

/-- C7: deleteQueue fails with NotFound when the queue is absent;
otherwise it removes the queue, every task it owns, and the journal
entries of those tasks, so that getQueue returns null, getTask returns
null for every task id previously in the queue, and getTaskJournal of
each such id returns the empty list (task ids are unique, as the
primary key guarantees). -/
theorem C7_deleteQueue (s : Store) (name : String)
    (hn : validateQueueName name = none)
    (hids : ∀ a ∈ s.tasks, ∀ b ∈ s.tasks, a.id = b.id → a = b) :
    (findQueue s name = none →
      deleteQueue s name = .error (Err.notFound resQueue name)) ∧
    (findQueue s name ≠ none → ∃ s2, deleteQueue s name = .ok s2 ∧
      getQueue s2 name = .ok none ∧
      (∀ tk ∈ s.tasks, tk.queueName = name → 0 < tk.id →
        getTask s2 tk.id = .ok none) ∧
      (∀ tk ∈ s.tasks, tk.queueName = name → 0 < tk.id →
        getTaskJournal s2 tk.id = .ok [])) := by
  refine ⟨?_, ?_⟩
  · intro hfq
    simp only [deleteQueue, hn, hfq]
  · intro hfq
    obtain ⟨qq, hqq⟩ := Option.ne_none_iff_exists'.mp hfq
    refine ⟨{ s with
        queues := s.queues.filter (fun q => !(decide (q.name = name))),
        tasks := s.tasks.filter (fun tk => !(decide (tk.queueName = name))),
        journal := s.journal.filter (fun j =>
          !(s.tasks.any (fun tk =>
            decide (tk.id = j.taskId) && decide (tk.queueName = name)))) },
      ?_, ?_, ?_, ?_⟩
    · simp only [deleteQueue, hn, hqq]
    · simp only [getQueue, hn, Except.ok.injEq]
      apply List.find?_eq_none.mpr
      intro a ha
      have := (List.mem_filter.mp ha).2
      simp only [Bool.not_eq_eq_eq_not, Bool.not_true, decide_eq_false_iff_not] at this
      simp only [decide_eq_true_eq]
      exact this
    · intro tk hm hqn hidpos
      simp only [getTask, validateTaskId_none hidpos, Except.ok.injEq]
      apply List.find?_eq_none.mpr
      intro a ha
      have hmem := List.mem_filter.mp ha
      have hane := hmem.2
      simp only [Bool.not_eq_eq_eq_not, Bool.not_true, decide_eq_false_iff_not] at hane
      simp only [decide_eq_true_eq]
      intro haid
      exact hane ((hids a hmem.1 tk hm haid) ▸ hqn)
    · intro tk hm hqn hidpos
      simp only [getTaskJournal, validateTaskId_none hidpos, Except.ok.injEq]
      have hnil : ({ s with
          queues := s.queues.filter (fun q => !(decide (q.name = name))),
          tasks := s.tasks.filter (fun tk => !(decide (tk.queueName = name))),
          journal := s.journal.filter (fun j =>
            !(s.tasks.any (fun tk =>
              decide (tk.id = j.taskId) && decide (tk.queueName = name)))) :
          Store }).journal.filter (fun j => decide (j.taskId = tk.id)) = [] := by
        apply List.filter_eq_nil_iff.mpr
        intro j hj
        have hmem := List.mem_filter.mp hj
        have hnoany := hmem.2
        simp only [Bool.not_eq_eq_eq_not, Bool.not_true, List.any_eq_false,
          Bool.and_eq_true, decide_eq_true_eq, not_and] at hnoany
        simp only [decide_eq_true_eq]
        intro hjid
        exact hnoany tk hm (by rw [hjid]) hqn
      rw [hnil]
      rfl

/-- Witness for C7: deleting queue `q1` of the demo store removes its
queue row, its four tasks, and their journal entries. -/
theorem C7_deleteQueue_witness :
    findQueue demoS5 qn1 ≠ none ∧
    (∃ s2, deleteQueue demoS5 qn1 = .ok s2 ∧
      getQueue s2 qn1 = .ok none ∧
      (∀ tk ∈ demoS5.tasks, tk.queueName = qn1 → 0 < tk.id →
        getTask s2 tk.id = .ok none) ∧
      (∀ tk ∈ demoS5.tasks, tk.queueName = qn1 → 0 < tk.id →
        getTaskJournal s2 tk.id = .ok [])) :=
  ⟨by decide, (C7_deleteQueue demoS5 qn1 (by decide) (by decide)).2 (by decide)⟩

/-- A patch that only retitles a task. -/
def c8patch : UpdateTaskRequest := ⟨some (r"retitled"), none, none, none, none⟩

/-- C8 counterexample: on the demo store whose task 1 was stored with
updated_at = 1, updateTask at tick 5 returns the task with updated_at =
5: updateTask does change the updated_at timestamp field (the SET list
and the update trigger both stamp CURRENT_TIMESTAMP), contradicting the
claim that no timestamp field changes. -/
theorem C8_counterexample :
    (updateTask demoS2 5 1 c8patch).map (fun p => p.1.updatedAt) = .ok 5 ∧
    (findTask demoS2 1).map (fun tk => tk.updatedAt) = some 1 :=
  ⟨rfl, rfl⟩

/-- C8 (amended): updateTask changes none of status, worker_id,
created_at, checked_out_at, completed_at; it refreshes updated_at to
the current timestamp; and only title, description, priority,
parameters and instructions are patched, with absent-preserves /
empty-clears semantics for description and instructions. -/
theorem C8_updateTask_frame (s : Store) (t : Nat) (id : Nat)
    (req : UpdateTaskRequest) (tk2 : Task) (s2 : Store)
    (h : updateTask s t id req = .ok (tk2, s2)) :
    ∃ tk, findTask s id = some tk ∧
      tk2.status = tk.status ∧ tk2.workerId = tk.workerId ∧
      tk2.createdAt = tk.createdAt ∧ tk2.checkedOutAt = tk.checkedOutAt ∧
      tk2.completedAt = tk.completedAt ∧ tk2.updatedAt = t ∧
      tk2.id = tk.id ∧ tk2.queueName = tk.queueName ∧
      (req.title = none → tk2.title = tk.title) ∧
      (∀ ti, req.title = some ti → tk2.title = ti) ∧
      (req.description = none → tk2.description = tk.description) ∧
      (∀ d, req.description = some d →
        tk2.description = (if d = "" then none else some d)) ∧
      (req.priority = none → tk2.priority = tk.priority) ∧
      (∀ p, req.priority = some p → tk2.priority = p) ∧
      (req.parameters = none → tk2.parameters = tk.parameters) ∧
      (∀ v, req.parameters = some v → tk2.parameters = v) ∧
      (req.instructions = none → tk2.instructions = tk.instructions) ∧
      (∀ i, req.instructions = some i →
        tk2.instructions = (if i = "" then none else some i)) ∧
      s2 = replaceTask s tk2 := by
  unfold updateTask at h
  split at h
  · exact Except.noConfusion h
  split at h
  · exact Except.noConfusion h
  case _ tk hfind =>
  split at h
  · exact Except.noConfusion h
  split at h
  · exact Except.noConfusion h
  simp only [Except.ok.injEq, Prod.mk.injEq] at h
  obtain ⟨h1, h2⟩ := h
  subst h2
  subst h1
  refine ⟨tk, hfind, rfl, rfl, rfl, rfl, rfl, rfl, rfl, rfl,
    ?_, ?_, ?_, ?_, ?_, ?_, ?_, ?_, ?_, ?_, rfl⟩
  · intro hti
    simp only [hti, Option.getD_none]
  · intro ti hti
    simp only [hti, Option.getD_some]
  · intro hd
    simp only [patchField, hd]
  · intro d hd
    simp only [patchField, hd]
  · intro hp
    simp only [hp, Option.getD_none]
  · intro p hp
    simp only [hp, Option.getD_some]
  · intro hv
    simp only [hv]
  · intro v hv
    simp only [hv]
  · intro hi
    simp only [patchField, hi]
  · intro i hi
    simp only [patchField, hi]

/-- Witness for C8 (amended): the retitling patch on the demo store
leaves status, worker, queue and creation data unchanged. -/
theorem C8_updateTask_frame_witness :
    ∃ tk, findTask demoS2 1 = some tk ∧
      (okValOf (updateTask demoS2 5 1 c8patch) junkTask).status = tk.status ∧
      (okValOf (updateTask demoS2 5 1 c8patch) junkTask).workerId = tk.workerId ∧
      (okValOf (updateTask demoS2 5 1 c8patch) junkTask).createdAt = tk.createdAt ∧
      (okValOf (updateTask demoS2 5 1 c8patch) junkTask).checkedOutAt = tk.checkedOutAt ∧
      (okValOf (updateTask demoS2 5 1 c8patch) junkTask).completedAt = tk.completedAt ∧
      (okValOf (updateTask demoS2 5 1 c8patch) junkTask).updatedAt = 5 ∧
      (okValOf (updateTask demoS2 5 1 c8patch) junkTask).id = tk.id ∧
      (okValOf (updateTask demoS2 5 1 c8patch) junkTask).queueName = tk.queueName ∧
      (c8patch.title = none →
        (okValOf (updateTask demoS2 5 1 c8patch) junkTask).title = tk.title) ∧
      (∀ ti, c8patch.title = some ti →
        (okValOf (updateTask demoS2 5 1 c8patch) junkTask).title = ti) ∧
      (c8patch.description = none →
        (okValOf (updateTask demoS2 5 1 c8patch) junkTask).description = tk.description) ∧
      (∀ d, c8patch.description = some d →
        (okValOf (updateTask demoS2 5 1 c8patch) junkTask).description =
          (if d = "" then none else some d)) ∧
      (c8patch.priority = none →
        (okValOf (updateTask demoS2 5 1 c8patch) junkTask).priority = tk.priority) ∧
      (∀ p, c8patch.priority = some p →
        (okValOf (updateTask demoS2 5 1 c8patch) junkTask).priority = p) ∧
      (c8patch.parameters = none →
        (okValOf (updateTask demoS2 5 1 c8patch) junkTask).parameters = tk.parameters) ∧
      (∀ v, c8patch.parameters = some v →
        (okValOf (updateTask demoS2 5 1 c8patch) junkTask).parameters = v) ∧
      (c8patch.instructions = none →
        (okValOf (updateTask demoS2 5 1 c8patch) junkTask).instructions = tk.instructions) ∧
      (∀ i, c8patch.instructions = some i →
        (okValOf (updateTask demoS2 5 1 c8patch) junkTask).instructions =
          (if i = "" then none else some i)) ∧
      okStoreOf (updateTask demoS2 5 1 c8patch) demoS2 =
        replaceTask demoS2 (okValOf (updateTask demoS2 5 1 c8patch) junkTask) :=
  C8_updateTask_frame demoS2 5 1 c8patch
    (okValOf (updateTask demoS2 5 1 c8patch) junkTask)
    (okStoreOf (updateTask demoS2 5 1 c8patch) demoS2) rfl

/-- The task-2 snapshot after completing it in the demo store. -/
def demoS7 : Store := okStoreOf (completeTask demoS6 11 2) demoS6

def demoTask2c : Task := (findTask demoS7 2).getD junkTask

/-- C9: failTask modifies only status (and updated_at): worker_id,
checked_out_at and completed_at are left unchanged, so a task failed
from completed keeps its non-null completed_at and a task failed from
checked_out keeps its worker_id and checked_out_at. -/
theorem C9_failTask (s : Store) (t : Nat) (id : Nat) (tk : Task)
    (hid : 0 < id) (hfind : findTask s id = some tk) :
    (tk.status = TaskStatus.failed → failTask s t id = .ok (tk, s)) ∧
    (tk.status ≠ TaskStatus.failed →
      failTask s t id = .ok ({ tk with
            status := TaskStatus.failed, updatedAt := t },
        replaceTask s { tk with
            status := TaskStatus.failed, updatedAt := t })) ∧
    (∀ tk2 s2, failTask s t id = .ok (tk2, s2) →
      tk2.workerId = tk.workerId ∧ tk2.checkedOutAt = tk.checkedOutAt ∧
      tk2.completedAt = tk.completedAt ∧ tk2.status = TaskStatus.failed ∧
      (tk.status = TaskStatus.completed → tk.completedAt ≠ none →
        tk2.completedAt ≠ none)) := by
  have hv := validateTaskId_none hid
  refine ⟨?_, ?_, ?_⟩
  · intro hst
    simp only [failTask, hv, hfind]
    rw [if_pos hst]
  · intro hst
    simp only [failTask, hv, hfind, if_neg hst]
  · intro tk2 s2 hok
    by_cases hst : tk.status = TaskStatus.failed
    · simp only [failTask, hv, hfind, if_pos hst, Except.ok.injEq,
        Prod.mk.injEq] at hok
      obtain ⟨h1, h2⟩ := hok
      subst h1
      exact ⟨rfl, rfl, rfl, hst, fun _ hne => hne⟩
    · simp only [failTask, hv, hfind, if_neg hst, Except.ok.injEq,
        Prod.mk.injEq] at hok
      obtain ⟨h1, h2⟩ := hok
      subst h1
      exact ⟨rfl, rfl, rfl, rfl, fun _ hne => hne⟩

/-- Witness for C9: failing the completed task 2 keeps its non-null
completed_at. -/
theorem C9_failTask_witness :
    (demoTask2c.status = TaskStatus.failed →
      failTask demoS7 12 2 = .ok (demoTask2c, demoS7)) ∧
    (demoTask2c.status ≠ TaskStatus.failed →
      failTask demoS7 12 2 = .ok ({ demoTask2c with
            status := TaskStatus.failed, updatedAt := 12 },
        replaceTask demoS7 { demoTask2c with
            status := TaskStatus.failed, updatedAt := 12 })) ∧
    (∀ tk2 s2, failTask demoS7 12 2 = .ok (tk2, s2) →
      tk2.workerId = demoTask2c.workerId ∧
      tk2.checkedOutAt = demoTask2c.checkedOutAt ∧
      tk2.completedAt = demoTask2c.completedAt ∧
      tk2.status = TaskStatus.failed ∧
      (demoTask2c.status = TaskStatus.completed → demoTask2c.completedAt ≠ none →
        tk2.completedAt ≠ none)) :=
  C9_failTask demoS7 12 2 demoTask2c (by decide) (by decide)

/-- C10: a zero or negative limit passed to listTasks is silently
ignored: the call succeeds and returns exactly the list that the same
call with no limit returns. -/
theorem C10_listTasks (s : Store) (q : String) (st : Option TaskStatus)
    (l : Int) (hq : validateQueueName q = none) (hl : l ≤ 0) :
    listTasks s q st (some l) = listTasks s q st none ∧
    ∃ rows, listTasks s q st (some l) = .ok rows := by
  have hnot : ¬(0 < l) := by omega
  have h1 : listTasks s q st (some l) = listTasks s q st none := by
    simp only [listTasks, hq, if_neg hnot]
  refine ⟨h1, sortTasks (s.tasks.filter (fun tk =>
      decide (tk.queueName = q) && statusMatches st tk)), ?_⟩
  rw [h1]
  simp only [listTasks, hq]

/-- Witness for C10: a limit of -3 on the demo queue behaves as no
limit. -/
theorem C10_listTasks_witness :
    listTasks demoS5 qn1 none (some (-3)) = listTasks demoS5 qn1 none none ∧
    ∃ rows, listTasks demoS5 qn1 none (some (-3)) = .ok rows :=
  C10_listTasks demoS5 qn1 none (-3) (by decide) (by decide)

end TaskQ
